import Mathlib

/-!
Verification of the letter-learning game (grid/tile placement, drag
resolution, match detection, task progression, scoring, persistence).

The embedding translates the source components into pure Lean functions:
React state is passed explicitly as a `GameState` record, the timed
success choreography is split into its immediate part
(`handleTaskSuccess`) and its deferred timeout continuation
(`successChoreography`), and values produced by `Date.now()` and
`Math.random()` (fresh tile ids, shuffled orderings) are taken as
explicit parameters.  The grid dimensions `GRID_ROWS`/`GRID_COLS` are
compile-time constants imported by the source component; they are
carried as explicit `rows`/`cols` arguments here.
-/

namespace ThreeL

/-- A placed tile: a character together with a stable identity token
(source: the values stored in `GridState`, `{ char, id }`). -/
structure Item where
  char : Char
  id : String
deriving DecidableEq

/-- The grid state: mapping from cell index to placed tile; absence
(`none`) means the cell is empty. -/
abbrev GridState := Nat → Option Item

/-- Origin of a drag gesture (`data.origin` in the source). -/
inductive Origin
| grid
| keyboard
deriving DecidableEq

/-- The drag payload (`DragData` in the source): origin, character, and
the optional id / source cell index. -/
structure DragData where
  origin : Origin
  char : Char
  id : Option String
  index : Option Nat
deriving DecidableEq

/-- Resolved drop target of a drag-end event: the keyboard area droppable
or a grid cell droppable `cell-j` carrying its index in its data. -/
inductive DropTarget
| keyboardArea
| cell (index : Nat)
deriving DecidableEq

/-- Task kind: `'syllable' | 'word'`. -/
inductive TaskType
| syllable
| word
deriving DecidableEq

/-- A task: prompt text (which may contain the `-` syllable-boundary
marker) and its kind. -/
structure Task where
  text : List Char
  type : TaskType
deriving DecidableEq

/-- Model of JavaScript `String.prototype.toLowerCase` restricted to the
alphabets this program uses: ASCII letters and Russian Cyrillic
(А..Я → а..я, Ё → ё).  Other characters are returned unchanged. -/
def jsToLower (c : Char) : Char :=
  if 0x41 ≤ c.toNat ∧ c.toNat ≤ 0x5A then Char.ofNat (c.toNat + 0x20)
  else if 0x410 ≤ c.toNat ∧ c.toNat ≤ 0x42F then Char.ofNat (c.toNat + 0x20)
  else if c.toNat = 0x401 then Char.ofNat 0x451
  else c

/-- Normalisation of the target word performed by `checkGridForWord`:
every dash removed (the global-replace of the dash regex), then
lowercased. -/
def cleanTarget (w : List Char) : List Char :=
  (w.filter (fun c => c ≠ '-')).map jsToLower

/-- The character sequence `rowChars` that `checkGridForWord` builds for
row `r`: cells are read left to right, a placed tile contributes its
lowercased character and an empty cell contributes the blank `' '`. -/
def renderRow (cols : Nat) (g : GridState) (r : Nat) : List Char :=
  (List.range cols).map (fun c =>
    match g (r * cols + c) with
    | some it => jsToLower it.char
    | none => ' ')

/-- The inner loop of `checkGridForWord`: does `target` occur in `row`
starting at offset `i`?  (`rowChars[i+j] !== cleanTarget[j]` comparisons;
out-of-range JS indexing yields `undefined`, modelled by `Option`.) -/
def matchAt (row target : List Char) (i : Nat) : Bool :=
  (List.range target.length).all (fun j => row[i + j]? == target[j]?)

/-- The scan loop of `checkGridForWord` over one row: offsets
`0 ≤ i ≤ rowChars.length - cleanTarget.length` (no iterations when the
target is longer than the row, as in the JS `for` loop). -/
def rowHasWord (row target : List Char) : Bool :=
  (List.range (row.length + 1 - target.length)).any (fun i => matchAt row target i)

/-- The detector `checkGridForWord(state, targetWord)`: true iff some grid row,
rendered with blanks for empty cells, contains the normalised target
contiguously.  `rows`/`cols` are the `GRID_ROWS`/`GRID_COLS` constants. -/
def checkGridForWord (rows cols : Nat) (g : GridState) (w : List Char) : Bool :=
  let tgt := cleanTarget w
  (List.range rows).any (fun r => rowHasWord (renderRow cols g r) tgt)

/-- Specification-side predicate: `target` occurs as a contiguous
substring of `row` (there are lists `s`, `t` with `s ++ target ++ t = row`). -/
def containsSub (target row : List Char) : Prop :=
  ∃ s t, s ++ target ++ t = row

/-- The React state of `LearningGame` that the claims are about, plus the
`letter` prop and the external progress store (`localStorage` map read
and written through `loadProgress`/`saveLetterScore`).  The
presentation-only `dragSize` field is omitted. -/
structure GameState where
  gridState : GridState
  activeDragData : Option DragData
  tasks : List Task
  currentTaskIndex : Nat
  moveCount : Nat
  failedStepsCount : Nat
  completedSteps : List Bool
  isProcessingSuccess : Bool
  gameFinished : Bool
  finalStars : Nat
  letter : String
  progress : String → Option Nat

/-- JavaScript `a || b` for `a : string | undefined`: falls back on `b`
when `a` is `undefined` or the empty string (both falsy). -/
def jsOrElse (a : Option String) (b : String) : String :=
  match a with
  | some s => if s = "" then b else s
  | none => b

/-- The star computation at the head of `finishGame`:
`stars = 3`, overridden to 0 / 1 / 2 for counts `>= 6` / `>= 4` / `>= 2`. -/
def starsFor (finalFailedCount : Nat) : Nat :=
  if 6 ≤ finalFailedCount then 0
  else if 4 ≤ finalFailedCount then 1
  else if 2 ≤ finalFailedCount then 2
  else 3

/-- Persistence: `saveLetterScore(letter, stars)` from `storage.ts` loads the current
progress map, overwrite the entry for `letter`, store the result. -/
def saveLetterScore (progress : String → Option Nat) (letter : String)
    (stars : Nat) : String → Option Nat :=
  fun l => if l = letter then some stars else progress l

/-- Finalisation: `finishGame(finalFailedCount)` computes the stars, marks the game
finished, persist the letter's score (and play the fanfare). -/
def finishGame (s : GameState) (finalFailedCount : Nat) : GameState :=
  let stars := starsFor finalFailedCount
  { s with finalStars := stars
           gameFinished := true
           progress := saveLetterScore s.progress s.letter stars }

/-- The immediate (synchronous) part of `handleTaskSuccess(task)`: lock
the session and apply the failure logic.  `s.moveCount` here is the value
the closure captured at the start of the drag-end event, i.e. the count
BEFORE the matching move's increment (the `setMoveCount` call does not
change the captured `moveCount` binding). -/
def handleTaskSuccess (s : GameState) (task : Task) : GameState :=
  let cleanText := task.text.filter (fun c => c ≠ '-')
  let limit := cleanText.length + 3
  let isFailedStep := limit < s.moveCount
  { s with isProcessingSuccess := true
           failedStepsCount :=
             if isFailedStep then s.failedStepsCount + 1 else s.failedStepsCount }

/-- The deferred continuation of `handleTaskSuccess` (the nested
`setTimeout` bodies): mark the current step completed, then either
finish the game (no tasks remain) or clear the grid, reset `moveCount`,
advance to the next task and unlock.  All captured values equal the
corresponding fields of the at-match state `s`, and the count handed to
`finishGame` (`isFailedStep ? failedStepsCount + 1 : failedStepsCount`
over the captured pre-increment count) equals `s.failedStepsCount` after
the immediate part already applied the increment. -/
def successChoreography (s : GameState) : GameState :=
  let s1 := { s with completedSteps := s.completedSteps.set s.currentTaskIndex true }
  let nextIndex := s.currentTaskIndex + 1
  if s.tasks.length ≤ nextIndex then
    finishGame s1 s1.failedStepsCount
  else
    { s1 with gridState := fun _ => none
              moveCount := 0
              currentTaskIndex := nextIndex
              isProcessingSuccess := false }

/-- Point update of a grid: `gridSet g i v` holds `v` at cell `i` and is
`g` elsewhere (the JS `delete nextState[i]` / `nextState[i] = v`). -/
def gridSet (g : GridState) (i : Nat) (v : Option Item) : GridState :=
  fun k => if k = i then v else g k

/-- The drop-resolution block of `handleDragEnd` (source lines building
`nextState` and `didChange` from the payload and the `over` target).
`freshId` stands for the id string the source mints from
`Date.now()`/`Math.random()` in the branch that needs one.  Returns the
next grid and the `didChange` flag. -/
def resolveDrop (g : GridState) (d : DragData) (target : DropTarget)
    (freshId : String) : GridState × Bool :=
  match target with
  | DropTarget.keyboardArea =>
    if d.origin = Origin.grid then
      match d.index with
      | some i => (gridSet g i none, true)
      | none => (g, true)
    else (g, false)
  | DropTarget.cell j =>
    match d.origin, d.index with
    | Origin.grid, some i =>
      if i = j then (g, false)
      else
        let existing := g j
        (gridSet (gridSet g i existing) j (some ⟨d.char, jsOrElse d.id freshId⟩), true)
    | Origin.grid, none => (g, false)
    | Origin.keyboard, _ =>
      (gridSet g j (some ⟨d.char, freshId⟩), true)

/-- Result of a drag-end event: the next state, and whether the match
detector (`checkGridForWord`) was invoked. -/
structure DragEndResult where
  state : GameState
  checkedMatch : Bool

/-- Drag end: `handleDragEnd(event)` is rejected while processing success or after
finishing (only the drag overlay is cleared); a missing drop target is a
cancel; otherwise the drop is resolved and, exactly when `didChange`,
the move counter is incremented and — when a current task exists — the
match detector runs, handing a hit to `handleTaskSuccess`. -/
def handleDragEnd (rows cols : Nat) (s : GameState) (d : DragData)
    (over : Option DropTarget) (freshId : String) : DragEndResult :=
  if s.gameFinished || s.isProcessingSuccess then
    ⟨{ s with activeDragData := none }, false⟩
  else
    match over with
    | none => ⟨{ s with activeDragData := none }, false⟩
    | some target =>
      let res := resolveDrop s.gridState d target freshId
      if res.2 then
        match s.tasks[s.currentTaskIndex]? with
        | some task =>
          if checkGridForWord rows cols res.1 task.text then
            ⟨{ handleTaskSuccess s task with
                 gridState := res.1
                 moveCount := s.moveCount + 1
                 activeDragData := none }, true⟩
          else
            ⟨{ s with gridState := res.1
                      moveCount := s.moveCount + 1
                      activeDragData := none }, true⟩
        | none =>
          ⟨{ s with gridState := res.1
                    moveCount := s.moveCount + 1
                    activeDragData := none }, false⟩
      else
        ⟨{ s with activeDragData := none }, false⟩

/-- Drag start: `handleDragStart(event)` is rejected (no-op) while processing success
or after finishing; otherwise records the active drag payload (sound and
ghost-size effects are presentation only). -/
def handleDragStart (s : GameState) (d : DragData) : GameState :=
  if s.gameFinished || s.isProcessingSuccess then s
  else { s with activeDragData := some d }

/-- Announcement: `announceTask(task)` returns the prompt handed to `speakText`; `none` when
there is no task (the early return).  Syllable prompts keep the boundary
marker, word prompts strip it. -/
def announceTask (t : Option Task) : Option (List Char) :=
  match t with
  | none => none
  | some task =>
    if task.type = TaskType.syllable then
      some ("Напиши слог ".toList ++ task.text)
    else
      some ("Напиши слово ".toList ++ task.text.filter (fun c => c ≠ '-'))

/-- Whether the re-announce button is rendered: the whole game screen —
including that button — is replaced by the results screen exactly when
`gameFinished`; the button itself carries no `disabled` attribute. -/
def reannounceRendered (s : GameState) : Bool :=
  !s.gameFinished

/-- The re-announce button's click handler:
`announceTask(tasks[currentTaskIndex])` — speech only, no state update. -/
def reannounceClick (s : GameState) : GameState × Option (List Char) :=
  (s, announceTask s.tasks[s.currentTaskIndex]?)

/-- The task list built by the init effect: three shuffled syllables (as
`syllable` tasks) followed by three shuffled words (as `word` tasks).
`syllShuffled`/`wordShuffled` stand for the results of `shuffle`, an
arbitrary permutation of the letter's candidate lists. -/
def initTasks (syllShuffled wordShuffled : List (List Char)) : List Task :=
  (syllShuffled.take 3).map (fun t => ⟨t, TaskType.syllable⟩)
    ++ (wordShuffled.take 3).map (fun t => ⟨t, TaskType.word⟩)

/-- The session state right after the `LearningGame` init effect ran for
`letter`: freshly drawn tasks, empty grid, all counters zero, all
completion flags false, unlocked and unfinished. -/
def initGame (letter : String) (progress : String → Option Nat)
    (syllShuffled wordShuffled : List (List Char)) : GameState :=
  { gridState := fun _ => none
    activeDragData := none
    tasks := initTasks syllShuffled wordShuffled
    currentTaskIndex := 0
    moveCount := 0
    failedStepsCount := 0
    completedSteps := List.replicate 6 false
    isProcessingSuccess := false
    gameFinished := false
    finalStars := 0
    letter := letter
    progress := progress }

/-- Each tile id occupies at most one cell. -/
def idsUnique (g : GridState) : Prop :=
  ∀ i j a b, g i = some a → g j = some b → a.id = b.id → i = j

/-- Some cell of `g` holds a tile with id `v`. -/
def idInGrid (g : GridState) (v : String) : Prop :=
  ∃ k it, g k = some it ∧ it.id = v

/-- A grid-origin drag payload describes the tile actually sitting at its
source cell (the payload is built from the rendered `DraggableItem`,
whose props come from the grid entry); generated ids are nonempty. -/
def payloadConsistent (g : GridState) (d : DragData) : Prop :=
  d.origin = Origin.grid →
    ∃ i it, d.index = some i ∧ g i = some it ∧ d.char = it.char ∧
      d.id = some it.id ∧ it.id ≠ ""

/-! ### Lemmas about the match detector -/

lemma matchAt_eq_true_iff (row target : List Char) (i : Nat) :
    matchAt row target i = true ↔ ∀ j, j < target.length → row[i + j]? = target[j]? := by
  simp [matchAt, List.all_eq_true, List.mem_range]

lemma rowHasWord_eq_true_iff (row target : List Char) :
    rowHasWord row target = true ↔ containsSub target row := by
  constructor
  · intro h
    simp only [rowHasWord, List.any_eq_true, List.mem_range] at h
    obtain ⟨i, hi, hm⟩ := h
    rw [matchAt_eq_true_iff] at hm
    have hbound : i + target.length ≤ row.length := by omega
    have htake : target = (row.drop i).take target.length := by
      apply List.ext_getElem?
      intro n
      by_cases hn : n < target.length
      · rw [List.getElem?_take_of_lt hn, List.getElem?_drop, hm n hn]
      · have h1 : target[n]? = none := List.getElem?_eq_none (by omega)
        have h2 : ((row.drop i).take target.length)[n]? = none := by
          apply List.getElem?_eq_none
          simp only [List.length_take, List.length_drop]
          omega
        rw [h1, h2]
    refine ⟨row.take i, (row.drop i).drop target.length, ?_⟩
    rw [List.append_assoc]
    nth_rewrite 1 [htake]
    rw [List.take_append_drop, List.take_append_drop]
  · rintro ⟨s, t, rfl⟩
    simp only [rowHasWord, List.any_eq_true, List.mem_range]
    refine ⟨s.length, ?_, ?_⟩
    · simp only [List.length_append]
      omega
    · rw [matchAt_eq_true_iff]
      intro j hj
      rw [List.append_assoc, List.getElem?_append_right (Nat.le_add_right _ _),
        Nat.add_sub_cancel_left, List.getElem?_append_left hj]

lemma checkGridForWord_eq_true_iff (rows cols : Nat) (g : GridState) (w : List Char) :
    checkGridForWord rows cols g w = true ↔
      ∃ r, r < rows ∧ containsSub (cleanTarget w) (renderRow cols g r) := by
  simp [checkGridForWord, List.any_eq_true, List.mem_range, rowHasWord_eq_true_iff]

/-! ### Lemmas about the drop resolver -/

lemma gridSet_self (g : GridState) (i : Nat) (v : Option Item) : gridSet g i v i = v := by
  simp [gridSet]

lemma gridSet_other (g : GridState) (i : Nat) (v : Option Item) {k : Nat} (h : k ≠ i) :
    gridSet g i v k = g k := by
  simp [gridSet, h]

lemma resolveDrop_snd_false {g : GridState} {d : DragData} {t : DropTarget} {fresh : String}
    (h : (resolveDrop g d t fresh).2 = false) :
    (resolveDrop g d t fresh).1 = g := by
  rcases d with ⟨o, ch, di, dx⟩
  rcases t with _ | j
  all_goals rcases o
  all_goals rcases dx with _ | i
  all_goals simp_all [resolveDrop]
  all_goals split_ifs at h ⊢
  all_goals simp_all

lemma jsOrElse_of_ne {s fb : String} (h : s ≠ "") : jsOrElse (some s) fb = s := by
  simp [jsOrElse, h]

lemma resolveDrop_keyboardArea_grid (g : GridState) (ch : Char) (di : Option String)
    (i : Nat) (fresh : String) :
    resolveDrop g ⟨Origin.grid, ch, di, some i⟩ DropTarget.keyboardArea fresh =
      (gridSet g i none, true) := rfl

lemma resolveDrop_move {i j : Nat} (hij : i ≠ j) (g : GridState) (ch : Char)
    (di : Option String) (fresh : String) :
    resolveDrop g ⟨Origin.grid, ch, di, some i⟩ (DropTarget.cell j) fresh =
      (gridSet (gridSet g i (g j)) j (some ⟨ch, jsOrElse di fresh⟩), true) := by
  simp only [resolveDrop]
  rw [if_neg hij]

lemma resolveDrop_same_cell (g : GridState) (ch : Char) (di : Option String)
    (i : Nat) (fresh : String) :
    resolveDrop g ⟨Origin.grid, ch, di, some i⟩ (DropTarget.cell i) fresh = (g, false) := by
  simp [resolveDrop]

lemma resolveDrop_keyboard_place (g : GridState) (ch : Char) (di : Option String)
    (dx : Option Nat) (j : Nat) (fresh : String) :
    resolveDrop g ⟨Origin.keyboard, ch, di, dx⟩ (DropTarget.cell j) fresh =
      (gridSet g j (some ⟨ch, fresh⟩), true) := by
  rcases dx with _ | i
  · rfl
  · rfl

lemma resolveDrop_keyboardArea_grid_fst (g : GridState) (ch : Char) (di : Option String)
    (i : Nat) (fresh : String) :
    (resolveDrop g ⟨Origin.grid, ch, di, some i⟩ DropTarget.keyboardArea fresh).1 =
      gridSet g i none := rfl

lemma resolveDrop_move_fst {i j : Nat} (hij : i ≠ j) (g : GridState) (ch : Char)
    (di : Option String) (fresh : String) :
    (resolveDrop g ⟨Origin.grid, ch, di, some i⟩ (DropTarget.cell j) fresh).1 =
      gridSet (gridSet g i (g j)) j (some ⟨ch, jsOrElse di fresh⟩) := by
  rw [resolveDrop_move hij]

lemma resolveDrop_same_cell_snd (g : GridState) (ch : Char) (di : Option String)
    (i : Nat) (fresh : String) :
    (resolveDrop g ⟨Origin.grid, ch, di, some i⟩ (DropTarget.cell i) fresh).2 = false := by
  rw [resolveDrop_same_cell]

lemma resolveDrop_keyboard_place_fst (g : GridState) (ch : Char) (di : Option String)
    (dx : Option Nat) (j : Nat) (fresh : String) :
    (resolveDrop g ⟨Origin.keyboard, ch, di, dx⟩ (DropTarget.cell j) fresh).1 =
      gridSet g j (some ⟨ch, fresh⟩) := by
  rw [resolveDrop_keyboard_place]

lemma resolveDrop_changes {g : GridState} {d : DragData} {t : DropTarget} {fresh : String}
    (hu : idsUnique g) (hc : payloadConsistent g d) (hf : ¬ idInGrid g fresh)
    (h : (resolveDrop g d t fresh).2 = true) :
    (resolveDrop g d t fresh).1 ≠ g := by
  rcases d with ⟨o, ch, di, dx⟩
  rcases t with _ | j
  · -- keyboard-area target: only a grid-origin payload sets didChange
    rcases o with _ | _
    · obtain ⟨i, it, hix, hgi, -, -, -⟩ := hc rfl
      have hdx : dx = some i := hix
      subst hdx
      rw [resolveDrop_keyboardArea_grid_fst]
      intro heq
      have hpt := congrFun heq i
      rw [gridSet_self, hgi] at hpt
      exact Option.noConfusion hpt
    · simp [resolveDrop] at h
  · rcases o with _ | _
    · obtain ⟨i, it, hix, hgi, hch, hid, hne⟩ := hc rfl
      have hdx : dx = some i := hix
      subst hdx
      have hdi : di = some it.id := hid
      subst hdi
      by_cases hij : i = j
      · subst hij
        rw [resolveDrop_same_cell_snd] at h
        exact Bool.noConfusion h
      · rw [resolveDrop_move_fst hij]
        intro heq
        have hpt := congrFun heq j
        rw [gridSet_self, jsOrElse_of_ne hne] at hpt
        exact hij (hu i j it ⟨ch, it.id⟩ hgi hpt.symm rfl)
    · rw [resolveDrop_keyboard_place_fst]
      intro heq
      have hpt := congrFun heq j
      rw [gridSet_self] at hpt
      exact hf ⟨j, ⟨ch, fresh⟩, hpt.symm, rfl⟩

lemma gridSet_idsUnique_none {g : GridState} (hu : idsUnique g) (i : Nat) :
    idsUnique (gridSet g i none) := by
  intro k1 k2 a b ha hb hab
  by_cases hk1 : k1 = i
  · rw [hk1, gridSet_self] at ha
    exact Option.noConfusion ha
  · by_cases hk2 : k2 = i
    · rw [hk2, gridSet_self] at hb
      exact Option.noConfusion hb
    · rw [gridSet_other _ _ _ hk1] at ha
      rw [gridSet_other _ _ _ hk2] at hb
      exact hu k1 k2 a b ha hb hab

lemma resolveDrop_idsUnique {g : GridState} {d : DragData} {t : DropTarget} {fresh : String}
    (hu : idsUnique g) (hc : payloadConsistent g d) (hf : ¬ idInGrid g fresh) :
    idsUnique (resolveDrop g d t fresh).1 := by
  rcases d with ⟨o, ch, di, dx⟩
  rcases t with _ | j
  · rcases o with _ | _
    · rcases dx with _ | i
      · simpa [resolveDrop] using hu
      · rw [resolveDrop_keyboardArea_grid_fst]
        exact gridSet_idsUnique_none hu i
    · simpa [resolveDrop] using hu
  · rcases o with _ | _
    · obtain ⟨i, it, hix, hgi, hch, hid, hne⟩ := hc rfl
      have hdx : dx = some i := hix
      subst hdx
      have hdi : di = some it.id := hid
      subst hdi
      by_cases hij : i = j
      · subst hij
        have hfst : (resolveDrop g ⟨Origin.grid, ch, some it.id, some i⟩
            (DropTarget.cell i) fresh).1 = g := by
          rw [resolveDrop_same_cell]
        rw [hfst]
        exact hu
      · rw [resolveDrop_move_fst hij, jsOrElse_of_ne hne]
        -- resulting grid: j holds the moved tile, i holds what j held, rest is g
        intro k1 k2 a b ha hb hab
        by_cases hk1j : k1 = j <;> by_cases hk2j : k2 = j
        · rw [hk1j, hk2j]
        · rw [hk1j, gridSet_self] at ha
          rw [gridSet_other _ _ _ hk2j] at hb
          have haid : a.id = it.id := by
            rw [← Option.some.inj ha]
          by_cases hk2i : k2 = i
          · rw [hk2i, gridSet_self] at hb
            have hji : j = i := hu j i b it hb hgi (by rw [← hab, haid])
            exact absurd hji.symm hij
          · rw [gridSet_other _ _ _ hk2i] at hb
            have hik : i = k2 := hu i k2 it b hgi hb (by rw [← hab, haid])
            exact absurd hik.symm hk2i
        · rw [hk2j, gridSet_self] at hb
          rw [gridSet_other _ _ _ hk1j] at ha
          have hbid : b.id = it.id := by
            rw [← Option.some.inj hb]
          by_cases hk1i : k1 = i
          · rw [hk1i, gridSet_self] at ha
            have hji : j = i := hu j i a it ha hgi (by rw [hab, hbid])
            exact absurd hji.symm hij
          · rw [gridSet_other _ _ _ hk1i] at ha
            have hik : k1 = i := hu k1 i a it ha hgi (by rw [hab, hbid])
            exact absurd hik hk1i
        · rw [gridSet_other _ _ _ hk1j] at ha
          rw [gridSet_other _ _ _ hk2j] at hb
          by_cases hk1i : k1 = i <;> by_cases hk2i : k2 = i
          · rw [hk1i, hk2i]
          · rw [hk1i, gridSet_self] at ha
            rw [gridSet_other _ _ _ hk2i] at hb
            have hjk : j = k2 := hu j k2 a b ha hb hab
            exact absurd hjk.symm hk2j
          · rw [hk2i, gridSet_self] at hb
            rw [gridSet_other _ _ _ hk1i] at ha
            have hkj : k1 = j := hu k1 j a b ha hb hab
            exact absurd hkj hk1j
          · rw [gridSet_other _ _ _ hk1i] at ha
            rw [gridSet_other _ _ _ hk2i] at hb
            exact hu k1 k2 a b ha hb hab
    · rw [resolveDrop_keyboard_place_fst]
      intro k1 k2 a b ha hb hab
      by_cases hk1j : k1 = j <;> by_cases hk2j : k2 = j
      · rw [hk1j, hk2j]
      · rw [hk1j, gridSet_self] at ha
        rw [gridSet_other _ _ _ hk2j] at hb
        refine absurd ⟨k2, b, hb, ?_⟩ hf
        rw [← hab, ← Option.some.inj ha]
      · rw [hk2j, gridSet_self] at hb
        rw [gridSet_other _ _ _ hk1j] at ha
        refine absurd ⟨k1, a, ha, ?_⟩ hf
        rw [hab, ← Option.some.inj hb]
      · rw [gridSet_other _ _ _ hk1j] at ha
        rw [gridSet_other _ _ _ hk2j] at hb
        exact hu k1 k2 a b ha hb hab

end ThreeL

namespace ThreeL

/-! ### Branch evaluations of `handleDragEnd` -/

lemma handleDragEnd_cancel (rows cols : Nat) (s : GameState) (d : DragData) (fresh : String) :
    handleDragEnd rows cols s d none fresh = ⟨{ s with activeDragData := none }, false⟩ := by
  by_cases hg : (s.gameFinished || s.isProcessingSuccess) = true
  · simp [handleDragEnd, hg]
  · simp [handleDragEnd, hg]

lemma handleDragEnd_locked (rows cols : Nat) (s : GameState) (d : DragData)
    (over : Option DropTarget) (fresh : String)
    (h : s.gameFinished = true ∨ s.isProcessingSuccess = true) :
    handleDragEnd rows cols s d over fresh = ⟨{ s with activeDragData := none }, false⟩ := by
  rcases h with h | h
  · simp [handleDragEnd, h]
  · simp [handleDragEnd, h]

lemma handleDragEnd_nochange (rows cols : Nat) (s : GameState) (d : DragData)
    (t : DropTarget) (fresh : String)
    (hg : s.gameFinished = false) (hp : s.isProcessingSuccess = false)
    (hres : (resolveDrop s.gridState d t fresh).2 = false) :
    handleDragEnd rows cols s d (some t) fresh = ⟨{ s with activeDragData := none }, false⟩ := by
  simp [handleDragEnd, hg, hp, hres]

lemma handleDragEnd_match {task : Task} (rows cols : Nat) (s : GameState) (d : DragData)
    (t : DropTarget) (fresh : String)
    (hg : s.gameFinished = false) (hp : s.isProcessingSuccess = false)
    (hres : (resolveDrop s.gridState d t fresh).2 = true)
    (htask : s.tasks[s.currentTaskIndex]? = some task)
    (hcheck : checkGridForWord rows cols (resolveDrop s.gridState d t fresh).1 task.text = true) :
    handleDragEnd rows cols s d (some t) fresh =
      ⟨{ handleTaskSuccess s task with
           gridState := (resolveDrop s.gridState d t fresh).1
           moveCount := s.moveCount + 1
           activeDragData := none }, true⟩ := by
  simp [handleDragEnd, hg, hp, hres, htask, hcheck]

lemma handleDragEnd_nomatch {task : Task} (rows cols : Nat) (s : GameState) (d : DragData)
    (t : DropTarget) (fresh : String)
    (hg : s.gameFinished = false) (hp : s.isProcessingSuccess = false)
    (hres : (resolveDrop s.gridState d t fresh).2 = true)
    (htask : s.tasks[s.currentTaskIndex]? = some task)
    (hcheck : checkGridForWord rows cols (resolveDrop s.gridState d t fresh).1 task.text = false) :
    handleDragEnd rows cols s d (some t) fresh =
      ⟨{ s with gridState := (resolveDrop s.gridState d t fresh).1
                moveCount := s.moveCount + 1
                activeDragData := none }, true⟩ := by
  simp [handleDragEnd, hg, hp, hres, htask, hcheck]

lemma handleDragEnd_notask (rows cols : Nat) (s : GameState) (d : DragData)
    (t : DropTarget) (fresh : String)
    (hg : s.gameFinished = false) (hp : s.isProcessingSuccess = false)
    (hres : (resolveDrop s.gridState d t fresh).2 = true)
    (htask : s.tasks[s.currentTaskIndex]? = none) :
    handleDragEnd rows cols s d (some t) fresh =
      ⟨{ s with gridState := (resolveDrop s.gridState d t fresh).1
                moveCount := s.moveCount + 1
                activeDragData := none }, false⟩ := by
  simp [handleDragEnd, hg, hp, hres, htask]

end ThreeL

namespace ThreeL

lemma cleanTarget_length (w : List Char) :
    (cleanTarget w).length = (w.filter (fun c => c ≠ '-')).length := by
  simp [cleanTarget]

/-- C1 (amended): when a drag-end produces a match (the session lock gets
set), the new move count is the old one plus one, and the step is marked
failed — incrementing `failedStepsCount` — exactly when the move count at
the match (counting the matching move) strictly exceeds L + 4, where L is
the normalised target length: the source compares the captured pre-move
`moveCount` against `L + 3`.  For target "ам" this means a match on move
6 is not failed and a match on move 7 is failed. -/
theorem c1_failure_flag (rows cols : Nat) (s : GameState) (d : DragData)
    (t : DropTarget) (fresh : String) (task : Task)
    (hg : s.gameFinished = false) (hp : s.isProcessingSuccess = false)
    (htask : s.tasks[s.currentTaskIndex]? = some task)
    (hlock : (handleDragEnd rows cols s d (some t) fresh).state.isProcessingSuccess = true) :
    (handleDragEnd rows cols s d (some t) fresh).state.moveCount = s.moveCount + 1 ∧
    (handleDragEnd rows cols s d (some t) fresh).state.failedStepsCount =
      (if (cleanTarget task.text).length + 4 <
            (handleDragEnd rows cols s d (some t) fresh).state.moveCount
       then s.failedStepsCount + 1 else s.failedStepsCount) := by
  by_cases hres : (resolveDrop s.gridState d t fresh).2 = true
  · by_cases hcheck :
        checkGridForWord rows cols (resolveDrop s.gridState d t fresh).1 task.text = true
    · rw [handleDragEnd_match rows cols s d t fresh hg hp hres htask hcheck]
      refine ⟨rfl, ?_⟩
      show (handleTaskSuccess s task).failedStepsCount = _
      have hcond : ((cleanTarget task.text).length + 4 < s.moveCount + 1) ↔
          ((task.text.filter (fun c => c ≠ '-')).length + 3 < s.moveCount) := by
        rw [cleanTarget_length]
        omega
      simp only [handleTaskSuccess, hcond]
    · rw [Bool.not_eq_true] at hcheck
      rw [handleDragEnd_nomatch rows cols s d t fresh hg hp hres htask hcheck] at hlock
      exact absurd hlock (by simp [hp])
  · rw [Bool.not_eq_true] at hres
    rw [handleDragEnd_nochange rows cols s d t fresh hg hp hres] at hlock
    exact absurd hlock (by simp [hp])

end ThreeL

namespace ThreeL

/-- Example grid for the C1 scenarios: the letter а placed at cell 0 of a
1 × 6 grid. -/
def c1Grid : GridState := fun k => if k = 0 then some ⟨'а', "t1"⟩ else none

/-- Example state for the C1 counterexample: target "ам", five moves
already made, so the next (matching) drop is move 6. -/
def c1State : GameState :=
  { gridState := c1Grid
    activeDragData := none
    tasks := [⟨"ам".toList, TaskType.syllable⟩]
    currentTaskIndex := 0
    moveCount := 5
    failedStepsCount := 0
    completedSteps := List.replicate 6 false
    isProcessingSuccess := false
    gameFinished := false
    finalStars := 0
    letter := "А"
    progress := fun _ => none }

/-- The keyboard drag of м used in the C1 scenarios. -/
def c1Drag : DragData := ⟨Origin.keyboard, 'м', none, none⟩

/-- C1 counterexample: for target "ам" (normalised length 2, claimed
threshold 5) a match reached on move 6 — the drop of м that completes
"ам" with the move counter at 6 — is NOT marked failed by the code:
`failedStepsCount` stays 0, while the claim requires it to become 1. -/
theorem c1_counterexample :
    (handleDragEnd 1 6 c1State c1Drag (some (DropTarget.cell 1)) "placed-1").state.moveCount
        = 6 ∧
    (handleDragEnd 1 6 c1State c1Drag (some (DropTarget.cell 1)) "placed-1").state.isProcessingSuccess
        = true ∧
    (handleDragEnd 1 6 c1State c1Drag (some (DropTarget.cell 1)) "placed-1").state.failedStepsCount
        = 0 := by
  refine ⟨?_, ?_, ?_⟩
  · rfl
  · rfl
  · rfl

/-- Example state for the C1 witness: six moves already made, so the
matching drop is move 7 — which IS a failed step. -/
def c1WitState : GameState := { c1State with moveCount := 6 }

/-- C1 witness: the amended failure-flag theorem applied at a concrete
input (a match on move 7 for target "ам": `7 > 2 + 4`, hence failed). -/
theorem c1_witness :
    (handleDragEnd 1 6 c1WitState c1Drag (some (DropTarget.cell 1)) "placed-1").state.moveCount
        = c1WitState.moveCount + 1 ∧
    (handleDragEnd 1 6 c1WitState c1Drag (some (DropTarget.cell 1)) "placed-1").state.failedStepsCount
        = (if (cleanTarget (⟨"ам".toList, TaskType.syllable⟩ : Task).text).length + 4 <
              (handleDragEnd 1 6 c1WitState c1Drag (some (DropTarget.cell 1)) "placed-1").state.moveCount
           then c1WitState.failedStepsCount + 1 else c1WitState.failedStepsCount) :=
  c1_failure_flag 1 6 c1WitState c1Drag (DropTarget.cell 1) "placed-1"
    ⟨"ам".toList, TaskType.syllable⟩ rfl rfl (by decide) (by decide)

end ThreeL

namespace ThreeL

/-- Example grid for C2: a single row holding с, о, к followed by two
empty cells. -/
def c2Grid : GridState := fun k =>
  if k = 0 then some ⟨'с', "t1"⟩
  else if k = 1 then some ⟨'о', "t2"⟩
  else if k = 2 then some ⟨'к', "t3"⟩
  else none

/-- C2: the match detector returns true iff some single grid row, read
left to right with a blank placeholder in each empty cell, contains the
normalised target as a contiguous substring (so matches never span two
rows); concretely, on the row с,о,к,_,_ the target "сок" matches, "ок"
matches, and "кос" does not. -/
theorem c2_match_detector :
    (∀ (rows cols : Nat) (g : GridState) (w : List Char),
        checkGridForWord rows cols g w = true ↔
          ∃ r, r < rows ∧ containsSub (cleanTarget w) (renderRow cols g r)) ∧
    checkGridForWord 1 5 c2Grid "сок".toList = true ∧
    checkGridForWord 1 5 c2Grid "ок".toList = true ∧
    checkGridForWord 1 5 c2Grid "кос".toList = false := by
  refine ⟨checkGridForWord_eq_true_iff, ?_, ?_, ?_⟩
  · rfl
  · rfl
  · rfl

/-- C3: the score function is total on the natural numbers and maps the
final failed-steps count to stars exactly by 0–1 ↦ 3, 2–3 ↦ 2, 4–5 ↦ 1,
and ≥ 6 ↦ 0. -/
theorem c3_stars :
    ∀ n : Nat,
      (n ≤ 1 → starsFor n = 3) ∧
      (2 ≤ n → n ≤ 3 → starsFor n = 2) ∧
      (4 ≤ n → n ≤ 5 → starsFor n = 1) ∧
      (6 ≤ n → starsFor n = 0) := by
  intro n
  unfold starsFor
  refine ⟨fun h => ?_, fun h1 h2 => ?_, fun h1 h2 => ?_, fun h => ?_⟩
  all_goals split_ifs
  all_goals omega

/-- C3 witness: the score theorem applied at one concrete count from each
band. -/
theorem c3_witness :
    starsFor 0 = 3 ∧ starsFor 2 = 2 ∧ starsFor 4 = 1 ∧ starsFor 6 = 0 :=
  ⟨(c3_stars 0).1 (by decide), (c3_stars 2).2.1 (by decide) (by decide),
   (c3_stars 4).2.2.1 (by decide) (by decide), (c3_stars 6).2.2.2 (by decide)⟩

/-- C10: when the target normalises to the empty string (it is empty or
consists only of boundary markers), the match detector returns true on
every grid — including the completely empty one — as the empty substring
occurs in row 0. -/
theorem c10_empty_target (rows cols : Nat) (g : GridState) (w : List Char)
    (hw : cleanTarget w = []) (hrows : 1 ≤ rows) :
    checkGridForWord rows cols g w = true := by
  rw [checkGridForWord_eq_true_iff]
  refine ⟨0, by omega, [], renderRow cols g 0, ?_⟩
  rw [hw]
  rfl

/-- C10 witness: the empty-normalisation theorem applied to the bare
boundary marker as target and the completely empty 1 × 5 grid. -/
theorem c10_witness :
    cleanTarget "-".toList = [] ∧
    checkGridForWord 1 5 (fun _ => none) "-".toList = true :=
  ⟨by decide, c10_empty_target 1 5 (fun _ => none) "-".toList (by decide) (by decide)⟩

end ThreeL

namespace ThreeL

/-- C4: dragging tile A from cell i onto a distinct occupied cell j
holding tile B swaps them — A (char and id preserved) at j, B at i,
every other cell untouched, and no id appears or disappears — and, in
general, every resolver operation preserves the invariant that each tile
id occupies at most one cell (given a payload consistent with the grid
and a fresh generated id). -/
theorem c4_swap_invariant :
    (∀ (g : GridState) (i j : Nat) (a b : Item) (fresh : String),
        g i = some a → g j = some b → i ≠ j → a.id ≠ "" →
        (resolveDrop g ⟨Origin.grid, a.char, some a.id, some i⟩ (DropTarget.cell j) fresh).1 j
            = some a ∧
        (resolveDrop g ⟨Origin.grid, a.char, some a.id, some i⟩ (DropTarget.cell j) fresh).1 i
            = some b ∧
        (∀ k, k ≠ i → k ≠ j →
          (resolveDrop g ⟨Origin.grid, a.char, some a.id, some i⟩ (DropTarget.cell j) fresh).1 k
            = g k) ∧
        (∀ v, idInGrid
            (resolveDrop g ⟨Origin.grid, a.char, some a.id, some i⟩ (DropTarget.cell j) fresh).1 v
              ↔ idInGrid g v)) ∧
    (∀ (g : GridState) (d : DragData) (t : DropTarget) (fresh : String),
        idsUnique g → payloadConsistent g d → ¬ idInGrid g fresh →
        idsUnique (resolveDrop g d t fresh).1) := by
  constructor
  · intro g i j a b fresh hga hgb hij hane
    rw [resolveDrop_move_fst hij, jsOrElse_of_ne hane]
    refine ⟨?_, ?_, ?_, ?_⟩
    · rw [gridSet_self]
    · rw [gridSet_other _ _ _ hij, gridSet_self, hgb]
    · intro k hki hkj
      rw [gridSet_other _ _ _ hkj, gridSet_other _ _ _ hki]
    · intro v
      constructor
      · rintro ⟨k, it, hk, hid⟩
        by_cases hkj : k = j
        · subst hkj
          rw [gridSet_self] at hk
          refine ⟨i, a, hga, ?_⟩
          rw [← hid, ← Option.some.inj hk]
        · by_cases hki : k = i
          · subst hki
            rw [gridSet_other _ _ _ hkj, gridSet_self] at hk
            exact ⟨j, it, hk, hid⟩
          · rw [gridSet_other _ _ _ hkj, gridSet_other _ _ _ hki] at hk
            exact ⟨k, it, hk, hid⟩
      · rintro ⟨k, it, hk, hid⟩
        by_cases hki : k = i
        · subst hki
          refine ⟨j, ⟨a.char, a.id⟩, ?_, ?_⟩
          · rw [gridSet_self]
          · have hita : a = it := Option.some.inj (hga.symm.trans hk)
            rw [← hid, ← hita]
        · by_cases hkj : k = j
          · subst hkj
            refine ⟨i, it, ?_, hid⟩
            rw [gridSet_other _ _ _ hij, gridSet_self]
            exact hk
          · refine ⟨k, it, ?_, hid⟩
            rw [gridSet_other _ _ _ hkj, gridSet_other _ _ _ hki]
            exact hk
  · intro g d t fresh hu hc hf
    exact resolveDrop_idsUnique hu hc hf

/-- Example grid for the C4 witness: tile A (а) at cell 0, tile B (м) at
cell 1. -/
def c4Grid : GridState := fun k =>
  if k = 0 then some ⟨'а', "A1"⟩
  else if k = 1 then some ⟨'м', "B2"⟩
  else none

/-- C4 witness: the swap theorem applied at a concrete grid — dragging A
from cell 0 onto occupied cell 1 puts A at 1 and B at 0. -/
theorem c4_witness :
    (resolveDrop c4Grid ⟨Origin.grid, 'а', some "A1", some 0⟩ (DropTarget.cell 1) "f").1 1
        = some ⟨'а', "A1"⟩ ∧
    (resolveDrop c4Grid ⟨Origin.grid, 'а', some "A1", some 0⟩ (DropTarget.cell 1) "f").1 0
        = some ⟨'м', "B2"⟩ :=
  have h := c4_swap_invariant.1 c4Grid 0 1 ⟨'а', "A1"⟩ ⟨'м', "B2"⟩ "f"
    rfl rfl (by decide) (by decide)
  ⟨h.1, h.2.1⟩

/-- C7: while the session is locked (success choreography in progress) or
finished, every drag begin and drag end event is rejected as a no-op:
grid state, moveCount, failedStepsCount and the completion flags are all
unchanged. -/
theorem c7_locked_noop (rows cols : Nat) (s : GameState) (d d2 : DragData)
    (over : Option DropTarget) (fresh : String)
    (h : s.isProcessingSuccess = true ∨ s.gameFinished = true) :
    ((handleDragEnd rows cols s d over fresh).state.gridState = s.gridState ∧
     (handleDragEnd rows cols s d over fresh).state.moveCount = s.moveCount ∧
     (handleDragEnd rows cols s d over fresh).state.failedStepsCount = s.failedStepsCount ∧
     (handleDragEnd rows cols s d over fresh).state.completedSteps = s.completedSteps) ∧
    (handleDragStart s d2).gridState = s.gridState ∧
    (handleDragStart s d2).moveCount = s.moveCount ∧
    (handleDragStart s d2).failedStepsCount = s.failedStepsCount ∧
    (handleDragStart s d2).completedSteps = s.completedSteps := by
  have hde := handleDragEnd_locked rows cols s d over fresh (h.elim Or.inr Or.inl)
  have hds : handleDragStart s d2 = s := by
    rcases h with h | h
    · simp [handleDragStart, h]
    · simp [handleDragStart, h]
  rw [hde, hds]
  exact ⟨⟨rfl, rfl, rfl, rfl⟩, rfl, rfl, rfl, rfl⟩

/-- Example locked state for the C7 witness. -/
def c7State : GameState := { c1State with isProcessingSuccess := true }

/-- C7 witness: the lock theorem applied at a concrete locked state and a
drop that would otherwise mutate the grid. -/
theorem c7_witness :
    (handleDragEnd 1 6 c7State c1Drag (some (DropTarget.cell 1)) "f").state.gridState
        = c7State.gridState ∧
    (handleDragEnd 1 6 c7State c1Drag (some (DropTarget.cell 1)) "f").state.moveCount
        = c7State.moveCount :=
  have h := c7_locked_noop 1 6 c7State c1Drag c1Drag (some (DropTarget.cell 1)) "f"
    (Or.inl rfl)
  ⟨h.1.1, h.1.2.1⟩

end ThreeL

namespace ThreeL

/-- C5: a drag-end with no drop target is a cancel (grid and moveCount
unchanged); dropping a grid tile back onto its own source cell is a
no-op; and — for payloads consistent with the grid, an id-unique grid
and a fresh generated id, with a current task present — a drag-end
increments moveCount by exactly one and runs the match detector when and
only when it changes the grid state. -/
theorem c5_dragend (rows cols : Nat) (s : GameState) (d : DragData)
    (t : DropTarget) (j : Nat) (fresh : String) :
    ((handleDragEnd rows cols s d none fresh).state.gridState = s.gridState ∧
     (handleDragEnd rows cols s d none fresh).state.moveCount = s.moveCount) ∧
    (d.origin = Origin.grid → d.index = some j →
      ((handleDragEnd rows cols s d (some (DropTarget.cell j)) fresh).state.gridState
          = s.gridState ∧
       (handleDragEnd rows cols s d (some (DropTarget.cell j)) fresh).state.moveCount
          = s.moveCount)) ∧
    (idsUnique s.gridState → payloadConsistent s.gridState d →
     ¬ idInGrid s.gridState fresh → (s.tasks[s.currentTaskIndex]?).isSome = true →
      (((handleDragEnd rows cols s d (some t) fresh).state.gridState ≠ s.gridState →
         (handleDragEnd rows cols s d (some t) fresh).state.moveCount = s.moveCount + 1 ∧
         (handleDragEnd rows cols s d (some t) fresh).checkedMatch = true) ∧
       ((handleDragEnd rows cols s d (some t) fresh).state.gridState = s.gridState →
         (handleDragEnd rows cols s d (some t) fresh).state.moveCount = s.moveCount ∧
         (handleDragEnd rows cols s d (some t) fresh).checkedMatch = false))) := by
  refine ⟨?_, ?_, ?_⟩
  · rw [handleDragEnd_cancel]
    exact ⟨rfl, rfl⟩
  · intro ho hix
    by_cases hfin : s.gameFinished = true
    · rw [handleDragEnd_locked rows cols s d _ fresh (Or.inl hfin)]
      exact ⟨rfl, rfl⟩
    · by_cases hps : s.isProcessingSuccess = true
      · rw [handleDragEnd_locked rows cols s d _ fresh (Or.inr hps)]
        exact ⟨rfl, rfl⟩
      · rw [Bool.not_eq_true] at hfin hps
        obtain ⟨o, ch, di, dx⟩ := d
        have ho' : o = Origin.grid := ho
        subst ho'
        have hix' : dx = some j := hix
        subst hix'
        rw [handleDragEnd_nochange rows cols s _ _ fresh hfin hps
          (resolveDrop_same_cell_snd s.gridState ch di j fresh)]
        exact ⟨rfl, rfl⟩
  · intro hu hc hf htask
    by_cases hfin : s.gameFinished = true
    · rw [handleDragEnd_locked rows cols s d (some t) fresh (Or.inl hfin)]
      exact ⟨fun hne => absurd rfl hne, fun _ => ⟨rfl, rfl⟩⟩
    · by_cases hps : s.isProcessingSuccess = true
      · rw [handleDragEnd_locked rows cols s d (some t) fresh (Or.inr hps)]
        exact ⟨fun hne => absurd rfl hne, fun _ => ⟨rfl, rfl⟩⟩
      · rw [Bool.not_eq_true] at hfin hps
        obtain ⟨task, htk⟩ := Option.isSome_iff_exists.mp htask
        by_cases hres : (resolveDrop s.gridState d t fresh).2 = true
        · have hch := resolveDrop_changes hu hc hf hres
          by_cases hcheck :
              checkGridForWord rows cols (resolveDrop s.gridState d t fresh).1 task.text = true
          · rw [handleDragEnd_match rows cols s d t fresh hfin hps hres htk hcheck]
            exact ⟨fun _ => ⟨rfl, rfl⟩, fun heqq => absurd heqq hch⟩
          · rw [Bool.not_eq_true] at hcheck
            rw [handleDragEnd_nomatch rows cols s d t fresh hfin hps hres htk hcheck]
            exact ⟨fun _ => ⟨rfl, rfl⟩, fun heqq => absurd heqq hch⟩
        · rw [Bool.not_eq_true] at hres
          rw [handleDragEnd_nochange rows cols s d t fresh hfin hps hres]
          exact ⟨fun hne => absurd rfl hne, fun _ => ⟨rfl, rfl⟩⟩

/-- Example state for the C5 witness: empty grid, target "ам". -/
def c5State : GameState := { c1State with gridState := fun _ => none }

/-- The keyboard drag of м used in the C5 witness. -/
def c5Drag : DragData := ⟨Origin.keyboard, 'м', none, none⟩

/-- C5 witness: the drag-end theorem applied at a concrete state — a
keyboard tile dropped on an empty cell changes the grid, so moveCount
goes up by one and the detector runs. -/
theorem c5_witness :
    (handleDragEnd 1 6 c5State c5Drag (some (DropTarget.cell 0)) "p").state.moveCount
        = c5State.moveCount + 1 ∧
    (handleDragEnd 1 6 c5State c5Drag (some (DropTarget.cell 0)) "p").checkedMatch = true := by
  have h := (c5_dragend 1 6 c5State c5Drag (DropTarget.cell 0) 0 "p").2.2
    (fun i j a b ha hb hab => Option.noConfusion ha)
    (fun h => Origin.noConfusion h)
    (fun hmem => by
      obtain ⟨k, it, hk, -⟩ := hmem
      exact Option.noConfusion hk)
    (by decide)
  refine h.1 ?_
  intro heq
  exact Option.noConfusion (congrFun heq 0)

/-- C6: for a letter whose candidate sets each hold at least three
members, initialisation yields exactly six tasks — three distinct
syllables followed by three distinct words, drawn from the letter's
content without repetition — with all counters zero and all completion
flags cleared. -/
theorem c6_init (letter : String) (progress : String → Option Nat)
    (syllables words ss ws : List (List Char))
    (hsp : ss.Perm syllables) (hwp : ws.Perm words)
    (hsn : syllables.Nodup) (hwn : words.Nodup)
    (hsl : 3 ≤ syllables.length) (hwl : 3 ≤ words.length) :
    (initGame letter progress ss ws).tasks.length = 6 ∧
    (((initGame letter progress ss ws).tasks.take 3).map Task.text).Nodup ∧
    (((initGame letter progress ss ws).tasks.drop 3).map Task.text).Nodup ∧
    (∀ t ∈ (initGame letter progress ss ws).tasks.take 3,
        t.type = TaskType.syllable ∧ t.text ∈ syllables) ∧
    (∀ t ∈ (initGame letter progress ss ws).tasks.drop 3,
        t.type = TaskType.word ∧ t.text ∈ words) ∧
    (initGame letter progress ss ws).moveCount = 0 ∧
    (initGame letter progress ss ws).failedStepsCount = 0 ∧
    (initGame letter progress ss ws).currentTaskIndex = 0 ∧
    (initGame letter progress ss ws).completedSteps = List.replicate 6 false := by
  have hssl : ss.length = syllables.length := hsp.length_eq
  have hwsl : ws.length = words.length := hwp.length_eq
  have hA : ((ss.take 3).map (fun t => (⟨t, TaskType.syllable⟩ : Task))).length = 3 := by
    simp only [List.length_map, List.length_take]
    omega
  have htake : (initGame letter progress ss ws).tasks.take 3
      = (ss.take 3).map (fun t => (⟨t, TaskType.syllable⟩ : Task)) := by
    simp only [initGame, initTasks]
    exact List.take_left' hA
  have hdrop : (initGame letter progress ss ws).tasks.drop 3
      = (ws.take 3).map (fun t => (⟨t, TaskType.word⟩ : Task)) := by
    simp only [initGame, initTasks]
    exact List.drop_left' hA
  have hssnd : ss.Nodup := hsp.nodup_iff.mpr hsn
  have hwsnd : ws.Nodup := hwp.nodup_iff.mpr hwn
  refine ⟨?_, ?_, ?_, ?_, ?_, rfl, rfl, rfl, rfl⟩
  · simp only [initGame, initTasks, List.length_append, List.length_map, List.length_take]
    omega
  · rw [htake, List.map_map]
    have hid : (Task.text ∘ fun t => (⟨t, TaskType.syllable⟩ : Task)) = id := rfl
    rw [hid, List.map_id]
    exact List.Sublist.nodup (List.take_sublist 3 ss) hssnd
  · rw [hdrop, List.map_map]
    have hid : (Task.text ∘ fun t => (⟨t, TaskType.word⟩ : Task)) = id := rfl
    rw [hid, List.map_id]
    exact List.Sublist.nodup (List.take_sublist 3 ws) hwsnd
  · rw [htake]
    intro t ht
    simp only [List.mem_map] at ht
    obtain ⟨x, hx, rfl⟩ := ht
    exact ⟨rfl, hsp.mem_iff.mp ((List.take_sublist 3 ss).subset hx)⟩
  · rw [hdrop]
    intro t ht
    simp only [List.mem_map] at ht
    obtain ⟨x, hx, rfl⟩ := ht
    exact ⟨rfl, hwp.mem_iff.mp ((List.take_sublist 3 ws).subset hx)⟩

/-- Concrete syllable candidates for the C6 witness. -/
def c6Syll : List (List Char) := ["ам".toList, "ма".toList, "му".toList]

/-- Concrete word candidates for the C6 witness. -/
def c6Words : List (List Char) := ["мама".toList, "мир".toList, "дом".toList]

/-- C6 witness: the initialisation theorem applied to concrete candidate
sets of exactly three syllables and three words (identity shuffle). -/
theorem c6_witness :
    (initGame "А" (fun _ => none) c6Syll c6Words).tasks.length = 6 ∧
    (((initGame "А" (fun _ => none) c6Syll c6Words).tasks.take 3).map Task.text).Nodup ∧
    (((initGame "А" (fun _ => none) c6Syll c6Words).tasks.drop 3).map Task.text).Nodup ∧
    (∀ t ∈ (initGame "А" (fun _ => none) c6Syll c6Words).tasks.take 3,
        t.type = TaskType.syllable ∧ t.text ∈ c6Syll) ∧
    (∀ t ∈ (initGame "А" (fun _ => none) c6Syll c6Words).tasks.drop 3,
        t.type = TaskType.word ∧ t.text ∈ c6Words) ∧
    (initGame "А" (fun _ => none) c6Syll c6Words).moveCount = 0 ∧
    (initGame "А" (fun _ => none) c6Syll c6Words).failedStepsCount = 0 ∧
    (initGame "А" (fun _ => none) c6Syll c6Words).currentTaskIndex = 0 ∧
    (initGame "А" (fun _ => none) c6Syll c6Words).completedSteps = List.replicate 6 false :=
  c6_init "А" (fun _ => none) c6Syll c6Words c6Syll c6Words
    (List.Perm.refl _) (List.Perm.refl _) (by decide) (by decide) (by decide) (by decide)

end ThreeL

namespace ThreeL

/-- C8: finishing after the last task's match computes the star rating
from the final failed-steps count — which already includes the last
step's failure, applied by `handleTaskSuccess` — and persists it for the
session's letter by unconditional overwrite, leaving every other
letter's record untouched. -/
theorem c8_finalize (s : GameState) (task : Task)
    (hlast : s.tasks.length = s.currentTaskIndex + 1) :
    (successChoreography (handleTaskSuccess s task)).gameFinished = true ∧
    (successChoreography (handleTaskSuccess s task)).finalStars
        = starsFor (handleTaskSuccess s task).failedStepsCount ∧
    (successChoreography (handleTaskSuccess s task)).progress s.letter
        = some (starsFor (handleTaskSuccess s task).failedStepsCount) ∧
    (∀ l, l ≠ s.letter →
        (successChoreography (handleTaskSuccess s task)).progress l = s.progress l) ∧
    (handleTaskSuccess s task).failedStepsCount
        = (if (cleanTarget task.text).length + 3 < s.moveCount
           then s.failedStepsCount + 1 else s.failedStepsCount) := by
  have hle : s.tasks.length ≤ s.currentTaskIndex + 1 := le_of_eq hlast
  refine ⟨?_, ?_, ?_, ?_, ?_⟩
  · simp [successChoreography, handleTaskSuccess, hle, finishGame]
  · simp [successChoreography, handleTaskSuccess, hle, finishGame]
  · simp [successChoreography, handleTaskSuccess, hle, finishGame, saveLetterScore]
  · intro l hl
    simp [successChoreography, handleTaskSuccess, hle, finishGame, saveLetterScore, hl]
  · simp [handleTaskSuccess, cleanTarget_length]

/-- Example state for the C8 witness: a one-task session on the letter А
whose stored record is 3 stars, with five failed steps already counted
and a last step that fails too (ten moves before the match against the
two-letter target). -/
def c8State : GameState :=
  { c1State with
      moveCount := 10
      failedStepsCount := 5
      progress := fun l => if l = "А" then some 3 else none }

/-- C8 witness: the finalisation theorem applied at a concrete state —
the sixth failure drops the rating to 0 and the store entry for А is
overwritten from 3 to 0 while another letter's record stays put. -/
theorem c8_witness :
    c8State.progress "А" = some 3 ∧
    (successChoreography
        (handleTaskSuccess c8State ⟨"ам".toList, TaskType.syllable⟩)).progress "А"
      = some 0 ∧
    (successChoreography
        (handleTaskSuccess c8State ⟨"ам".toList, TaskType.syllable⟩)).progress "У"
      = none ∧
    (successChoreography
        (handleTaskSuccess c8State ⟨"ам".toList, TaskType.syllable⟩)).gameFinished
      = true := by
  have h := c8_finalize c8State ⟨"ам".toList, TaskType.syllable⟩ rfl
  refine ⟨rfl, ?_, ?_, h.1⟩
  · exact h.2.2.1.trans (by decide)
  · exact (h.2.2.2.1 "У" (by decide)).trans (by decide)

/-- Example locked state for the C9 scenarios: the success choreography
is in progress. -/
def c9State : GameState := { c1State with isProcessingSuccess := true }

/-- C9 counterexample: while the success choreography is in progress the
re-announce button is still rendered (the game screen is only replaced
once the session is finished, and the button carries no disabled
attribute), and clicking it produces the spoken prompt — so re-announce
is NOT restricted to the awaiting-input phase. -/
theorem c9_counterexample :
    c9State.isProcessingSuccess = true ∧
    reannounceRendered c9State = true ∧
    ((reannounceClick c9State).2).isSome = true := by
  refine ⟨rfl, rfl, rfl⟩

/-- C9 (amended): re-announcing the current task never mutates the game
state — in particular moveCount, failedStepsCount, the completion flags
and the grid are unchanged — and the button is unavailable exactly when
the session is finished (the results screen replaces it); it remains
available during success processing. -/
theorem c9_reannounce (s : GameState) :
    (reannounceClick s).1 = s ∧
    (s.gameFinished = true → reannounceRendered s = false) ∧
    (s.gameFinished = false → reannounceRendered s = true) := by
  refine ⟨rfl, ?_, ?_⟩
  · intro h
    simp [reannounceRendered, h]
  · intro h
    simp [reannounceRendered, h]

/-- C9 witness: the amended re-announce theorem applied at the concrete
locked state. -/
theorem c9_witness :
    (reannounceClick c9State).1 = c9State ∧ reannounceRendered c9State = true :=
  ⟨(c9_reannounce c9State).1, (c9_reannounce c9State).2.2 rfl⟩

end ThreeL
